import Mathlib

/-!
# CapBot — verification of the ingestion pipeline

Shallow embedding of `capbot.py` / `db.py` (the clan-cap ingestion bot):

* the Event Classifier date functions `get_date_timestamp` / `timestamp_to_date`
  (Python `datetime.strptime("%d-%b-%Y %H:%M")` / `strftime` over UTC);
* the Roster Fetcher parser `fetch_clan_members`;
* the Ingestion Scheduler loop `get_clan_cap_events`;
* the Event Store (`cap_events` table with `UNIQUE(rsn, cap_timestamp)` and
  `INSERT OR IGNORE` batch insert) and the task `fetch_cap_event_task`.

Network I/O is modelled by explicit inputs: the roster HTTP response is an
`Option String` (`none` = HTTP-level failure), and each per-member call of
`fetch_user_activites` is represented by one `FetchOutcome` consumed from a
list, in request order.  A date string is represented by the result of
parsing it with `strptime` (`Option DateParts`; `none` stands for any string
the parser rejects).  Epoch timestamps are `Int` seconds (the Python floats
involved are integral, since the format has minute resolution).
-/

set_option maxRecDepth 10000

/-! ## Calendar arithmetic (model of `datetime` UTC conversions) -/

/-- Whether a proleptic-Gregorian year (as `Nat`) is a leap year. -/
def isLeapNat (y : Nat) : Bool :=
  decide ((y % 4 = 0 ∧ ¬ y % 100 = 0) ∨ y % 400 = 0)

/-- Whether a proleptic-Gregorian year (as `Int`) is a leap year. -/
def isLeap (y : Int) : Bool :=
  decide ((y % 4 = 0 ∧ ¬ y % 100 = 0) ∨ y % 400 = 0)

/-- Number of days in a month. -/
def daysInMonth (m : Nat) (leap : Bool) : Nat :=
  if m = 2 then (if leap then 29 else 28)
  else if m = 4 ∨ m = 6 ∨ m = 9 ∨ m = 11 then 30 else 31

/-- Day number (within a 400-year era, March-based) on which year `y` of the
era starts; `yearStart 400 = 146097` is the era length. -/
def yearStart (y : Nat) : Nat := 365 * y + y / 4 - y / 100 + y / 400

/-- Numerator of the year-extraction formula of civil-from-days. -/
def doeAdj (doe : Nat) : Nat := doe - doe / 1460 + doe / 36524 - doe / 146096

/-- Era-local part of civil-from-days: day-of-era to
(year-of-era adjusted for Jan/Feb, month, day). -/
def civilInner (doe : Nat) : Nat × Nat × Nat :=
  let yoe := doeAdj doe / 365
  let doy := doe - (365 * yoe + yoe / 4 - yoe / 100)
  let mp := (5 * doy + 2) / 153
  let d := doy - (153 * mp + 2) / 5 + 1
  let m := if mp < 10 then mp + 3 else mp - 9
  (yoe + (if m ≤ 2 then 1 else 0), m, d)

/-- Days since 1970-01-01 to civil date (proleptic Gregorian, as computed by
`datetime.fromtimestamp(·, tz=timezone.utc)`). -/
def civilFromDays (z : Int) : Int × Nat × Nat :=
  let era := (z + 719468) / 146097
  let doe := ((z + 719468) % 146097).toNat
  let t := civilInner doe
  (era * 400 + (t.1 : Int), t.2.1, t.2.2)

/-- Civil date to days since 1970-01-01 (as computed by
`datetime(...).timestamp()` for a UTC datetime). -/
def daysFromCivil (year : Int) (month day : Nat) : Int :=
  let y : Int := if month ≤ 2 then year - 1 else year
  let mp : Nat := if 2 < month then month - 3 else month + 9
  let doy : Nat := (153 * mp + 2) / 5 + day - 1
  365 * y + y / 4 - y / 100 + y / 400 + (doy : Int) - 719468

/-- Nat mirror of the era-local part of `daysFromCivil`, used for the
bounded verification of the conversion round trip. -/
def daysInner (yA m d : Nat) : Nat :=
  let y := yA - (if m ≤ 2 then 1 else 0)
  let mp := if 2 < m then m - 3 else m + 9
  let doy := (153 * mp + 2) / 5 + d - 1
  365 * y + y / 4 - y / 100 + y / 400 + doy

/-- Bundle of facts about the month/day extraction from a day-of-year,
verified below for all `doy < 366`. -/
def mdFacts (doy : Nat) : Bool :=
  let mp := (5 * doy + 2) / 153
  let pd := (153 * mp + 2) / 5
  let m := if mp < 10 then mp + 3 else mp - 9
  let d := doy - pd + 1
  decide (pd ≤ doy ∧ mp ≤ 11 ∧ 1 ≤ m ∧ m ≤ 12 ∧ 1 ≤ d ∧ d ≤ daysInMonth m true ∧
    (doy ≠ 365 → d ≤ daysInMonth m false) ∧ (doy = 365 → m = 2 ∧ d = 29) ∧
    (if 2 < m then m - 3 else m + 9) = mp)

/-! ## The Event Classifier date functions -/

/-- The components a successful `strptime(date, "%d-%b-%Y %H:%M")` extracts. -/
structure DateParts where
  year : Int
  month : Nat
  day : Nat
  hour : Nat
  minute : Nat
deriving DecidableEq, Repr

/-- Field validity enforced by `strptime` plus `datetime` construction. -/
def validDate (p : DateParts) : Bool :=
  decide (1 ≤ p.month ∧ p.month ≤ 12 ∧ 1 ≤ p.day ∧
    p.day ≤ daysInMonth p.month (isLeap p.year) ∧ p.hour < 24 ∧ p.minute < 60)

/-- `get_date_timestamp` from `capbot.py`: parse a `"%d-%b-%Y %H:%M"` date
string as UTC and return its epoch timestamp.  The input is the string's
parse result (`none` = `strptime`/`datetime` raises `ValueError`). -/
def get_date_timestamp (date : Option DateParts) : Option Int :=
  match date with
  | none => none
  | some p =>
    if validDate p then
      some (daysFromCivil p.year p.month p.day * 86400 +
        (p.hour : Int) * 3600 + (p.minute : Int) * 60)
    else none

/-- `timestamp_to_date` from `capbot.py`: format an epoch timestamp as a UTC
`"%d-%b-%Y %H:%M"` date; represented by the formatted string's components. -/
def timestamp_to_date (t : Int) : DateParts :=
  let days := t / 86400
  let sod := (t % 86400).toNat
  let c := civilFromDays days
  { year := c.1, month := c.2.1, day := c.2.2,
    hour := sod / 3600, minute := sod % 3600 / 60 }

/-! ## Data model -/

/-- `ClanMember` from `capbot.py`. -/
structure ClanMember where
  rsn : String
  rank : String
  total_xp : Int
  kills : Int
deriving DecidableEq, Inhabited, Repr

/-- `Activity` from `capbot.py`; the `date` field holds the parse result of
the upstream date string (`none` = a string `get_date_timestamp` rejects). -/
structure Activity where
  date : Option DateParts
  details : String
  text : String
deriving DecidableEq, Repr

/-! ## Roster Fetcher parsing (`fetch_clan_members`) -/

/-- Splitting a character list on a separator character, keeping empty
pieces — the behavior of Python `str.split(sep)` for the one-character
separators used by the source (`"\n"` and `","`). -/
def pySplitList (sep : Char) : List Char → List (List Char)
  | [] => [[]]
  | c :: rest =>
    match pySplitList sep rest with
    | [] => [[c]]
    | w :: ws => if c = sep then [] :: w :: ws else (c :: w) :: ws

/-- Python `s.split(sep)` for a one-character separator. -/
def pySplit (sep : Char) (s : String) : List String :=
  (pySplitList sep s.toList).map fun l => String.mk l

/-- Python `str.strip()` with no arguments: drop leading and trailing
whitespace. -/
def pyStrip (s : String) : String :=
  String.mk (((s.toList.dropWhile Char.isWhitespace).reverse.dropWhile
    Char.isWhitespace).reverse)

/-- Python `str.replace(pat, rep)` for one-character pattern and
replacement (the source replaces NBSP `"\u00A0"` by a space). -/
def pyReplaceChar (pat rep : Char) (s : String) : String :=
  String.mk (s.toList.map fun c => if c = pat then rep else c)

/-- Model of Python `int(s)`: optional surrounding whitespace, optional
sign, decimal digits; `none` = `ValueError`. -/
def pyInt (s : String) : Option Int :=
  let digits : List Char → Option Nat := fun l =>
    if l ≠ [] ∧ l.all Char.isDigit then
      some (l.foldl (fun acc c => 10 * acc + (c.toNat - 48)) 0)
    else none
  match (pyStrip s).toList with
  | '-' :: rest => (digits rest).map fun n => -(n : Int)
  | '+' :: rest => (digits rest).map fun n => (n : Int)
  | l => (digits l).map fun n => (n : Int)

/-- One iteration of the `fetch_clan_members` row loop: `some none` = row
skipped (fewer than 4 comma-delimited fields), `some (some m)` = a parsed
member, `none` = `int()` raised. -/
def parseRosterRow (row : String) : Option (Option ClanMember) :=
  let entry := pySplit ',' row
  if entry.length < 4 then some none
  else
    match pyInt (entry.getD 2 ""), pyInt (entry.getD 3 "") with
    | some xp, some k =>
        some (some { rsn := pyStrip (pyReplaceChar '\u00A0' ' ' (entry.getD 0 "")),
                     rank := pyStrip (entry.getD 1 ""), total_xp := xp, kills := k })
    | _, _ => none

/-- The row loop of `fetch_clan_members` over the already-split lines:
drops the header line, then folds `parseRosterRow`; an exception (`none`)
aborts the whole parse. -/
def fetch_clan_members_rows (rows : List String) : Option (List ClanMember) :=
  (rows.drop 1).foldl
    (fun acc row => acc.bind fun ms => (parseRosterRow row).map fun m? => ms ++ m?.toList)
    (some [])

/-- `fetch_clan_members` from `capbot.py`, applied to the roster response
body (the HTTP GET itself is modelled by the caller); `content.split("\n")`
then the row loop. -/
def fetch_clan_members (content : String) : Option (List ClanMember) :=
  fetch_clan_members_rows (pySplit '\n' content)

/-! ## Event Classifier (`get_cap_events`) -/

/-- The sentinel activity text denoting a citadel cap. -/
def capSentinel : String := "Capped at my Clan Citadel."

/-- `get_cap_events` from `capbot.py`: keep the activities whose `text`
equals the sentinel. -/
def get_cap_events (activities : List Activity) : List Activity :=
  activities.filter fun a => a.text == capSentinel

/-! ## Ingestion Scheduler (`get_clan_cap_events`) -/

/-- Result of one `fetch_user_activites` call for the current member:
`success acts` = the call returned the list `acts` (this includes the
private-profile and missing-`activities` soft failures, which return `[]`);
`http code` = `raise_for_status`/the request raised `HTTPError` with this
status code; `error` = any other exception (e.g. `KeyError` from an
activity object missing a field, or a JSON decode error). -/
inductive FetchOutcome where
  | success (acts : List Activity)
  | http (code : Nat)
  | error
deriving DecidableEq, Repr

/-- `MAX_FAILURES` from `capbot.py`. -/
def MAX_FAILURES : Nat := 5

/-- The loop variables of `get_clan_cap_events`, plus the observation
history `sleeps` (the back-off sleeps performed on 429 responses, in
order; the fixed 3-unit pacing sleep is not recorded) and `iter` (number
of loop iterations entered, used to time the cancellation signal). -/
structure LoopState where
  index : Nat
  numSuccess : Nat
  numFailures : Nat
  requestDelay : Nat
  events : List (String × Int)
  sleeps : List Nat
  iter : Nat
deriving DecidableEq, Repr

/-- Initial loop state of `get_clan_cap_events`. -/
def initState : LoopState :=
  { index := 0, numSuccess := 0, numFailures := 0, requestDelay := 10,
    events := [], sleeps := [], iter := 0 }

/-- How a run of the scheduler loop ends: `ok` = the function returns
(normally, by `break`, or by an early `return`) with final state `s`;
`raised code` = an uncaught `HTTPError` propagates out of the function
(its accumulated events are lost); `fuelOut` = the supplied outcome
stream was exhausted (model artifact, never reached in the theorems). -/
inductive RunResult where
  | ok (s : LoopState)
  | raised (code : Nat) (s : LoopState)
  | fuelOut (s : LoopState)
deriving DecidableEq, Repr

/-- Final loop state carried by a `RunResult`. -/
def RunResult.state : RunResult → LoopState
  | .ok s => s
  | .raised _ s => s
  | .fuelOut s => s

/-- Whether the cancellation event is set at loop iteration `iter`
(the signal is set once, before the `cancelAt`-th check, and stays set). -/
def cancelFired (cancelAt : Option Nat) (iter : Nat) : Bool :=
  match cancelAt with
  | none => false
  | some n => decide (n ≤ iter)

/-- The `for activity in activities` body of `get_clan_cap_events`:
append `(rsn, get_date_timestamp(activity.date))` for each activity;
a date-parse failure raises, keeping the appends made so far
(`true` = an exception escaped to the enclosing `try`). -/
def appendCaps (rsn : String) :
    List Activity → List (String × Int) → List (String × Int) × Bool
  | [], acc => (acc, false)
  | a :: rest, acc =>
    match get_date_timestamp a.date with
    | some t => appendCaps rsn rest (acc ++ [(rsn, t)])
    | none => (acc, true)

/-- The `while index < len(clan_members)` loop of `get_clan_cap_events`.
Each non-cancelled iteration consumes one `FetchOutcome` (the result of
its `fetch_user_activites` call). -/
def runLoop (members : List ClanMember) (maxEvents : Int) (cancelAt : Option Nat) :
    List FetchOutcome → LoopState → RunResult
  | [], s =>
    if s.index < members.length then
      if cancelFired cancelAt s.iter then .ok s else .fuelOut s
    else .ok s
  | o :: rest, s =>
    if s.index < members.length then
      if cancelFired cancelAt s.iter then .ok s
      else
        let rsn := (members.getD s.index default).rsn
        match o with
        | .success acts =>
          let pr := appendCaps rsn (get_cap_events acts) s.events
          if pr.2 then
            -- the ValueError from get_date_timestamp lands in `except Exception`
            if MAX_FAILURES < s.numFailures + 1 then
              .ok { s with events := pr.1, numFailures := s.numFailures + 1 }
            else
              runLoop members maxEvents cancelAt rest
                { s with events := pr.1, numFailures := s.numFailures + 1,
                         index := s.index + 1, iter := s.iter + 1 }
          else
            if 0 < maxEvents ∧ maxEvents ≤ ((s.numSuccess : Int) + 1) then
              .ok { s with events := pr.1, numSuccess := s.numSuccess + 1 }
            else
              runLoop members maxEvents cancelAt rest
                { s with events := pr.1, numSuccess := s.numSuccess + 1,
                         index := s.index + 1, requestDelay := 10, iter := s.iter + 1 }
        | .http code =>
          if code = 429 then
            if 100 < 2 * s.requestDelay then
              .ok { s with sleeps := s.sleeps ++ [s.requestDelay],
                           requestDelay := 2 * s.requestDelay }
            else
              runLoop members maxEvents cancelAt rest
                { s with sleeps := s.sleeps ++ [s.requestDelay],
                         requestDelay := 2 * s.requestDelay, iter := s.iter + 1 }
          else
            -- `raise http_error` inside `except HTTPError`: the exception
            -- propagates out of the function (the later `except Exception`
            -- clause of the same `try` does not catch it)
            .raised code s
        | .error =>
          if MAX_FAILURES < s.numFailures + 1 then
            .ok { s with numFailures := s.numFailures + 1 }
          else
            runLoop members maxEvents cancelAt rest
              { s with numFailures := s.numFailures + 1,
                       index := s.index + 1, iter := s.iter + 1 }
    else .ok s

/-- `get_clan_cap_events` from `capbot.py`.  `rosterResponse` is the roster
HTTP response body (`none` = the roster fetch raised, which the function
absorbs and returns an empty result).  `.error code` = an uncaught
`HTTPError` escapes the function. -/
def get_clan_cap_events (rosterResponse : Option String) (cancelAt : Option Nat)
    (outcomes : List FetchOutcome) (maxEvents : Int) :
    Except Nat (List (String × Int)) :=
  match rosterResponse with
  | none => .ok []
  | some content =>
    match fetch_clan_members content with
    | none => .ok []
    | some members =>
      match runLoop members maxEvents cancelAt outcomes initState with
      | .ok s => .ok s.events
      | .fuelOut s => .ok s.events
      | .raised code _ => .error code

/-! ## Event Store (`db.py` and `fetch_cap_event_task`) -/

/-- A row of the `cap_events` table (the auto-assigned surrogate `id` is
not modelled; queries never use it). -/
structure CapRow where
  rsn : String
  cap_timestamp : Int
  source : Option String
deriving DecidableEq, Repr

/-- Whether a row with the same `(rsn, cap_timestamp)` key is present
(the `UNIQUE(rsn, cap_timestamp)` constraint of `init_db`). -/
def keyMem (db : List CapRow) (r : CapRow) : Bool :=
  db.any fun x => x.rsn == r.rsn && x.cap_timestamp == r.cap_timestamp

/-- One `INSERT OR IGNORE INTO cap_events` statement. -/
def insertOrIgnore (db : List CapRow) (r : CapRow) : List CapRow :=
  if keyMem db r then db else db ++ [r]

/-- `executemany("INSERT OR IGNORE INTO cap_events(...) VALUES(?,?,?)", rows)`. -/
def insertBatch (db : List CapRow) (rows : List CapRow) : List CapRow :=
  rows.foldl insertOrIgnore db

/-- The `SELECT rsn,cap_timestamp FROM cap_events WHERE cap_timestamp >= t`
query of the `/caplist` read path. -/
def queryRecent (db : List CapRow) (since : Int) : List (String × Int) :=
  (db.filter fun r => decide (since ≤ r.cap_timestamp)).map fun r => (r.rsn, r.cap_timestamp)

/-- `fetch_cap_event_task` from `capbot.py`: run the scheduler, then insert
the batch with source `"auto"`; an exception escaping the scheduler kills
the task thread before any insert. -/
def fetch_cap_event_task (db : List CapRow) (rosterResponse : Option String)
    (cancelAt : Option Nat) (outcomes : List FetchOutcome) :
    Except Nat (List CapRow) :=
  (get_clan_cap_events rosterResponse cancelAt outcomes (-1)).map fun evs =>
    insertBatch db (evs.map fun e => { rsn := e.1, cap_timestamp := e.2, source := some "auto" })

/-! ## Verification auxiliaries (specification-side descriptions) -/

/-- The cap events one member's successfully parsed activity list
contributes: one `(rsn, timestamp)` pair per sentinel activity. -/
def memberEvents (m : ClanMember) (acts : List Activity) : List (String × Int) :=
  (appendCaps m.rsn (get_cap_events acts) []).1

/-- The member's activity list parses without an exception (every cap
activity has a date accepted by `get_date_timestamp`). -/
@[reducible] def goodActs (m : ClanMember) (acts : List Activity) : Prop :=
  (appendCaps m.rsn (get_cap_events acts) []).2 = false

/-- Spec-side row result: the `ClanMember` a roster line contributes, if
it parses and is not skipped. -/
def rosterRowMember (row : String) : Option ClanMember :=
  match parseRosterRow row with
  | some (some m) => some m
  | _ => none

/-- Events contributed by a run of members processed against their
per-member activity lists, in order. -/
def batchEvents (ms : List ClanMember) (actsL : List (List Activity)) :
    List (String × Int) :=
  ((ms.zip actsL).map fun p => memberEvents p.1 p.2).flatten

/-- A concrete cap activity (1970-01-01 00:10 UTC, timestamp 600), used as
test data in several concrete runs below. -/
def capAt10 : Activity :=
  { date := some { year := 1970, month := 1, day := 1, hour := 0, minute := 10 },
    details := "", text := capSentinel }

/-- A cap activity whose date field is malformed (February 30th does not
exist, so `strptime`/`datetime` raise and `get_date_timestamp` fails). -/
def capBadDate : Activity :=
  { date := some { year := 1970, month := 2, day := 30, hour := 0, minute := 0 },
    details := "", text := capSentinel }

/-! ## Calendar lemmas -/

theorem doeAdj_le_succ (n : Nat) : doeAdj n ≤ doeAdj (n + 1) := by
  unfold doeAdj
  omega

theorem doeAdj_mono {a b : Nat} (h : a ≤ b) : doeAdj a ≤ doeAdj b := by
  induction b with
  | zero =>
    have ha : a = 0 := by omega
    subst ha
    exact le_rfl
  | succ n ih =>
    rcases Nat.lt_or_ge a (n + 1) with h' | h'
    · exact le_trans (ih (by omega)) (doeAdj_le_succ n)
    · have ha : a = n + 1 := by omega
      subst ha
      exact le_rfl

theorem yearStart_mono_succ (y : Nat) : yearStart y ≤ yearStart (y + 1) := by
  unfold yearStart
  omega

theorem yearStart_step (y : Nat) : yearStart (y + 1) + 365 ≤ yearStart (y + 1 + 1) := by
  unfold yearStart
  omega

theorem yearStart_400 : yearStart 400 = 146097 := by
  unfold yearStart
  norm_num

theorem yearCover (doe : Nat) (h : doe ≤ 146096) :
    ∃ y, y ≤ 399 ∧ yearStart y ≤ doe ∧ doe < yearStart (y + 1) := by
  induction doe with
  | zero =>
    refine ⟨0, by norm_num, by norm_num [yearStart], ?_⟩
    norm_num [yearStart]
  | succ n ih =>
    obtain ⟨y, hy, h1, h2⟩ := ih (by omega)
    by_cases hcase : n + 1 < yearStart (y + 1)
    · exact ⟨y, hy, by omega, hcase⟩
    · have hy399 : y < 399 := by
        rcases Nat.lt_or_ge y 399 with h' | h'
        · exact h'
        · have hy' : y = 399 := by omega
          subst hy'
          have h400 : yearStart (399 + 1) = 146097 := by norm_num [yearStart]
          omega
      have hstep := yearStart_step y
      exact ⟨y + 1, by omega, by omega, by omega⟩

theorem yearEndpoints : ∀ y : Nat, y < 400 →
    doeAdj (yearStart y) / 365 = y ∧ doeAdj (yearStart (y + 1) - 1) / 365 = y := by
  decide

theorem yearLen : ∀ y : Nat, y < 400 →
    (yearStart (y + 1) - yearStart y = 365 ∧ isLeapNat ((y + 1) % 400) = false) ∨
    (yearStart (y + 1) - yearStart y = 366 ∧ isLeapNat ((y + 1) % 400) = true) := by
  decide

theorem mdFacts_all : ∀ doy : Nat, doy < 366 → mdFacts doy = true := by
  decide

theorem mdFacts_spec (doy : Nat) (h : doy < 366) :
    (153 * ((5 * doy + 2) / 153) + 2) / 5 ≤ doy ∧
    (5 * doy + 2) / 153 ≤ 11 ∧
    1 ≤ (if (5 * doy + 2) / 153 < 10 then (5 * doy + 2) / 153 + 3 else (5 * doy + 2) / 153 - 9) ∧
    (if (5 * doy + 2) / 153 < 10 then (5 * doy + 2) / 153 + 3 else (5 * doy + 2) / 153 - 9) ≤ 12 ∧
    1 ≤ doy - (153 * ((5 * doy + 2) / 153) + 2) / 5 + 1 ∧
    doy - (153 * ((5 * doy + 2) / 153) + 2) / 5 + 1 ≤
      daysInMonth (if (5 * doy + 2) / 153 < 10 then (5 * doy + 2) / 153 + 3 else (5 * doy + 2) / 153 - 9) true ∧
    (doy ≠ 365 → doy - (153 * ((5 * doy + 2) / 153) + 2) / 5 + 1 ≤
      daysInMonth (if (5 * doy + 2) / 153 < 10 then (5 * doy + 2) / 153 + 3 else (5 * doy + 2) / 153 - 9) false) ∧
    (doy = 365 →
      (if (5 * doy + 2) / 153 < 10 then (5 * doy + 2) / 153 + 3 else (5 * doy + 2) / 153 - 9) = 2 ∧
      doy - (153 * ((5 * doy + 2) / 153) + 2) / 5 + 1 = 29) ∧
    (if 2 < (if (5 * doy + 2) / 153 < 10 then (5 * doy + 2) / 153 + 3 else (5 * doy + 2) / 153 - 9)
      then (if (5 * doy + 2) / 153 < 10 then (5 * doy + 2) / 153 + 3 else (5 * doy + 2) / 153 - 9) - 3
      else (if (5 * doy + 2) / 153 < 10 then (5 * doy + 2) / 153 + 3 else (5 * doy + 2) / 153 - 9) + 9) =
      (5 * doy + 2) / 153 := by
  have hb := mdFacts_all doy h
  simp only [mdFacts] at hb
  exact of_decide_eq_true hb

theorem civilInner_spec (doe : Nat) (h : doe ≤ 146096) :
    daysInner (civilInner doe).1 (civilInner doe).2.1 (civilInner doe).2.2 = doe ∧
    (if (civilInner doe).2.1 ≤ 2 then 1 else 0) ≤ (civilInner doe).1 ∧
    (civilInner doe).1 - (if (civilInner doe).2.1 ≤ 2 then 1 else 0) ≤ 399 ∧
    1 ≤ (civilInner doe).2.1 ∧ (civilInner doe).2.1 ≤ 12 ∧
    1 ≤ (civilInner doe).2.2 ∧
    (civilInner doe).2.2 ≤
      daysInMonth (civilInner doe).2.1 (isLeapNat ((civilInner doe).1 % 400)) := by
  obtain ⟨y, hy399, hS, hS1⟩ := yearCover doe h
  have hepair := yearEndpoints y (by omega)
  have hmono1 := doeAdj_mono hS
  have hmono2 := doeAdj_mono (show doe ≤ yearStart (y + 1) - 1 by omega)
  have hyoe : doeAdj doe / 365 = y := by omega
  simp only [civilInner, hyoe]
  have hysy : yearStart y = 365 * y + y / 4 - y / 100 + y / 400 := rfl
  have hysy1 : yearStart (y + 1) =
      365 * (y + 1) + (y + 1) / 4 - (y + 1) / 100 + (y + 1) / 400 := rfl
  have hlen := yearLen y (by omega)
  have hmono := yearStart_mono_succ y
  have hdoy366 : doe - (365 * y + y / 4 - y / 100) < 366 := by
    rcases hlen with ⟨hl, _⟩ | ⟨hl, _⟩ <;> omega
  have hmd := mdFacts_spec (doe - (365 * y + y / 4 - y / 100)) hdoy366
  set doy := doe - (365 * y + y / 4 - y / 100) with hdoyd
  set mp := (5 * doy + 2) / 153 with hmpd
  set pd := (153 * mp + 2) / 5 with hpdd
  set m := if mp < 10 then mp + 3 else mp - 9 with hmdef
  set d := doy - pd + 1 with hdd
  obtain ⟨h1, h2, h3, h4, h5, h6, h7, h8, h9⟩ := hmd
  refine ⟨?_, ?_, ?_, h3, h4, h5, ?_⟩
  · -- daysInner round trip
    simp only [daysInner]
    by_cases hm2 : m ≤ 2
    · rw [if_neg (by omega)] at h9
      simp only [if_pos hm2, if_neg (show ¬ 2 < m by omega), Nat.add_sub_cancel]
      have hpd9 : (153 * (m + 9) + 2) / 5 = pd := by
        rw [h9]
      rw [hpd9]
      omega
    · rw [if_pos (by omega)] at h9
      simp only [if_neg hm2, if_pos (show 2 < m by omega), Nat.add_zero, Nat.sub_zero]
      have hpd3 : (153 * (m - 3) + 2) / 5 = pd := by
        rw [h9]
      rw [hpd3]
      omega
  · by_cases hm2 : m ≤ 2 <;> simp [hm2]
  · by_cases hm2 : m ≤ 2 <;> simp [hm2] <;> omega
  · -- day within month, leap-aware
    by_cases hdoy365 : doy = 365
    · obtain ⟨hm2eq, hd29⟩ := h8 hdoy365
      rcases hlen with ⟨hl, _⟩ | ⟨hl, hleap⟩
      · omega
      · rw [hm2eq, hd29]
        rw [if_pos (by norm_num : (2:Nat) ≤ 2)]
        have hyrw : (y + 1) % 400 = (y + 1) % 400 := rfl
        rw [hleap]
        norm_num [daysInMonth]
    · cases hb : isLeapNat ((y + (if m ≤ 2 then 1 else 0)) % 400)
      · exact h7 hdoy365
      · exact h6

theorem isLeap_bridge (e : Int) (a : Nat) :
    isLeap (e * 400 + (a : Int)) = isLeapNat (a % 400) := by
  unfold isLeap isLeapNat
  rw [decide_eq_decide]
  omega

theorem daysFromCivil_civilFromDays (z : Int) :
    daysFromCivil (civilFromDays z).1 (civilFromDays z).2.1 (civilFromDays z).2.2 = z := by
  have hmodpos : 0 ≤ (z + 719468) % 146097 := Int.emod_nonneg _ (by norm_num)
  have hmodlt : (z + 719468) % 146097 < 146097 := Int.emod_lt_of_pos _ (by norm_num)
  have hdiv : 146097 * ((z + 719468) / 146097) + (z + 719468) % 146097 = z + 719468 :=
    Int.ediv_add_emod _ _
  simp only [civilFromDays]
  set era := (z + 719468) / 146097 with hera
  set doe := ((z + 719468) % 146097).toNat with hdoe
  have hcast : (doe : Int) = (z + 719468) % 146097 := Int.toNat_of_nonneg hmodpos
  have hdoe146096 : doe ≤ 146096 := by omega
  obtain ⟨hinner, hs_le, hyA399, hmge, hm12, hd1, hdmax⟩ := civilInner_spec doe hdoe146096
  set c := civilInner doe with hc
  set yA := c.1 with hyA
  set m := c.2.1 with hm
  set d := c.2.2 with hd
  simp only [daysFromCivil]
  by_cases hm2 : m ≤ 2
  · simp only [if_pos hm2, if_neg (show ¬ 2 < m by omega)]
    rw [if_pos hm2] at hs_le hyA399
    simp only [daysInner, if_pos hm2, if_neg (show ¬ 2 < m by omega)] at hinner
    have e1 : (era * 400 + (yA : Int) - 1) / 4 = era * 100 + (((yA - 1) / 4 : Nat) : Int) := by
      omega
    have e2 : (era * 400 + (yA : Int) - 1) / 100 = era * 4 + (((yA - 1) / 100 : Nat) : Int) := by
      omega
    have e3 : (era * 400 + (yA : Int) - 1) / 400 = era + (((yA - 1) / 400 : Nat) : Int) := by
      omega
    rw [e1, e2, e3]
    omega
  · simp only [if_neg hm2, if_pos (show 2 < m by omega)]
    rw [if_neg hm2] at hs_le hyA399
    simp only [daysInner, if_neg hm2, if_pos (show 2 < m by omega), Nat.sub_zero] at hinner
    have e1 : (era * 400 + (yA : Int)) / 4 = era * 100 + ((yA / 4 : Nat) : Int) := by
      omega
    have e2 : (era * 400 + (yA : Int)) / 100 = era * 4 + ((yA / 100 : Nat) : Int) := by
      omega
    have e3 : (era * 400 + (yA : Int)) / 400 = era + ((yA / 400 : Nat) : Int) := by
      omega
    rw [e1, e2, e3]
    omega

theorem civilFromDays_spec (z : Int) :
    1 ≤ (civilFromDays z).2.1 ∧ (civilFromDays z).2.1 ≤ 12 ∧
    1 ≤ (civilFromDays z).2.2 ∧
    (civilFromDays z).2.2 ≤ daysInMonth (civilFromDays z).2.1 (isLeap (civilFromDays z).1) := by
  have hmodpos : 0 ≤ (z + 719468) % 146097 := Int.emod_nonneg _ (by norm_num)
  have hmodlt : (z + 719468) % 146097 < 146097 := Int.emod_lt_of_pos _ (by norm_num)
  simp only [civilFromDays]
  set doe := ((z + 719468) % 146097).toNat with hdoe
  have hdoe146096 : doe ≤ 146096 := by omega
  obtain ⟨hinner, hs_le, hyA399, hmge, hm12, hd1, hdmax⟩ := civilInner_spec doe hdoe146096
  set c := civilInner doe with hc
  rw [isLeap_bridge]
  exact ⟨hmge, hm12, hd1, hdmax⟩

theorem timestamp_to_date_valid (t : Int) : validDate (timestamp_to_date t) = true := by
  have hmodpos : 0 ≤ t % 86400 := Int.emod_nonneg _ (by norm_num)
  have hmodlt : t % 86400 < 86400 := Int.emod_lt_of_pos _ (by norm_num)
  obtain ⟨hm1, hm12, hd1, hdmax⟩ := civilFromDays_spec (t / 86400)
  simp only [timestamp_to_date, validDate, decide_eq_true_eq]
  exact ⟨hm1, hm12, hd1, hdmax, by omega, by omega⟩

/-- Key round-trip fact: formatting then re-parsing recovers any
minute-aligned timestamp. -/
theorem roundtrip_mul60 (t : Int) (h : t % 60 = 0) :
    get_date_timestamp (some (timestamp_to_date t)) = some t := by
  have hval := timestamp_to_date_valid t
  have hmain := daysFromCivil_civilFromDays (t / 86400)
  have hmodpos : 0 ≤ t % 86400 := Int.emod_nonneg _ (by norm_num)
  have hmodlt : t % 86400 < 86400 := Int.emod_lt_of_pos _ (by norm_num)
  simp only [get_date_timestamp, hval, if_true]
  simp only [timestamp_to_date] at hmain ⊢
  rw [hmain]
  congr 1
  omega

/-- Every timestamp the classifier's date parser produces is a whole
multiple of 60 (the date format carries minute resolution only). -/
theorem get_date_timestamp_dvd (dt : Option DateParts) (t : Int)
    (h : get_date_timestamp dt = some t) : (60 : Int) ∣ t := by
  cases dt with
  | none => simp [get_date_timestamp] at h
  | some p =>
    simp only [get_date_timestamp] at h
    split_ifs at h with hv
    · have ht : daysFromCivil p.year p.month p.day * 86400 +
          (p.hour : Int) * 3600 + (p.minute : Int) * 60 = t := by
        injection h
      omega

/-! ## Scheduler lemmas -/

theorem appendCaps_acc (rsn : String) (l : List Activity) (acc : List (String × Int)) :
    appendCaps rsn l acc =
      (acc ++ (appendCaps rsn l []).1, (appendCaps rsn l []).2) := by
  induction l generalizing acc with
  | nil => simp [appendCaps]
  | cons a rest ih =>
    cases hda : get_date_timestamp a.date with
    | none => simp [appendCaps, hda]
    | some t =>
      simp only [appendCaps, hda]
      rw [ih (acc ++ [(rsn, t)]), ih ([] ++ [(rsn, t)])]
      simp

theorem appendCaps_mem (rsn : String) (l : List Activity) (acc : List (String × Int))
    (p : String × Int) (hp : p ∈ (appendCaps rsn l acc).1) :
    p ∈ acc ∨ (60 : Int) ∣ p.2 := by
  induction l generalizing acc with
  | nil =>
    simp only [appendCaps] at hp
    exact Or.inl hp
  | cons a rest ih =>
    cases hda : get_date_timestamp a.date with
    | none =>
      simp only [appendCaps, hda] at hp
      exact Or.inl hp
    | some t =>
      simp only [appendCaps, hda] at hp
      rcases ih (acc ++ [(rsn, t)]) hp with h | h
      · rcases List.mem_append.1 h with h' | h'
        · exact Or.inl h'
        · have hpt : p = (rsn, t) := by simpa using h'
          subst hpt
          exact Or.inr (get_date_timestamp_dvd _ _ hda)
      · exact Or.inr h

theorem runLoop_events_dvd (members : List ClanMember) (maxEvents : Int)
    (cancelAt : Option Nat) (os : List FetchOutcome) (s : LoopState)
    (hs : ∀ p ∈ s.events, (60 : Int) ∣ p.2) :
    ∀ p ∈ (runLoop members maxEvents cancelAt os s).state.events, (60 : Int) ∣ p.2 := by
  induction os generalizing s with
  | nil =>
    intro p hp
    simp only [runLoop] at hp
    split at hp
    · split at hp
      · exact hs p hp
      · exact hs p hp
    · exact hs p hp
  | cons o rest ih =>
    intro p hp
    simp only [runLoop] at hp
    split at hp
    · split at hp
      · exact hs p hp
      · split at hp
        · -- success
          split at hp
          · split at hp
            · exact (appendCaps_mem _ _ _ p hp).elim (hs p) id
            · exact ih _ (fun q hq => (appendCaps_mem _ _ _ q hq).elim (hs q) id) p hp
          · split at hp
            · exact (appendCaps_mem _ _ _ p hp).elim (hs p) id
            · exact ih _ (fun q hq => (appendCaps_mem _ _ _ q hq).elim (hs q) id) p hp
        · -- http
          split at hp
          · split at hp
            · exact hs p hp
            · exact ih _ (by intro q hq; exact hs q hq) p hp
          · exact hs p hp
        · -- other error
          split at hp
          · exact hs p hp
          · exact ih _ (by intro q hq; exact hs q hq) p hp
    · exact hs p hp

/-! ## Event Store lemmas -/

theorem insertOrIgnore_of_keyMem (db : List CapRow) (r : CapRow)
    (h : keyMem db r = true) : insertOrIgnore db r = db := by
  simp [insertOrIgnore, h]

theorem keyMem_self_insertOrIgnore (db : List CapRow) (r : CapRow) :
    keyMem (insertOrIgnore db r) r = true := by
  unfold insertOrIgnore
  by_cases h : keyMem db r = true
  · simp [h]
  · rw [if_neg h]
    simp [keyMem, List.any_append]

theorem keyMem_insertOrIgnore_mono (db : List CapRow) (r x : CapRow)
    (h : keyMem db r = true) : keyMem (insertOrIgnore db x) r = true := by
  unfold insertOrIgnore
  split
  · exact h
  · simp only [keyMem, List.any_append, Bool.or_eq_true]
    exact Or.inl h

theorem keyMem_insertBatch_mono (b : List CapRow) (db : List CapRow) (r : CapRow)
    (h : keyMem db r = true) : keyMem (insertBatch db b) r = true := by
  induction b generalizing db with
  | nil => exact h
  | cons x xs ih =>
    simp only [insertBatch, List.foldl_cons]
    exact ih (insertOrIgnore db x) (keyMem_insertOrIgnore_mono db r x h)

theorem keyMem_insertBatch_of_mem (b : List CapRow) (db : List CapRow) (r : CapRow)
    (h : r ∈ b) : keyMem (insertBatch db b) r = true := by
  induction b generalizing db with
  | nil => cases h
  | cons x xs ih =>
    simp only [insertBatch, List.foldl_cons]
    rcases List.mem_cons.1 h with h' | h'
    · subst h'
      exact keyMem_insertBatch_mono xs _ r (keyMem_self_insertOrIgnore db r)
    · exact ih (insertOrIgnore db x) h'

theorem insertBatch_of_all_keyMem (b : List CapRow) :
    ∀ db : List CapRow, (∀ r ∈ b, keyMem db r = true) → insertBatch db b = db := by
  induction b with
  | nil =>
    intro db _
    rfl
  | cons x xs ih =>
    intro db h
    simp only [insertBatch, List.foldl_cons]
    rw [insertOrIgnore_of_keyMem db x (h x (by simp))]
    exact ih db fun r hr => h r (by simp [hr])

theorem mem_insertBatch (b : List CapRow) (db : List CapRow) (r : CapRow)
    (h : r ∈ insertBatch db b) : r ∈ db ∨ r ∈ b := by
  induction b generalizing db with
  | nil => exact Or.inl h
  | cons x xs ih =>
    simp only [insertBatch, List.foldl_cons] at h
    rcases ih (insertOrIgnore db x) h with h' | h'
    · unfold insertOrIgnore at h'
      split at h'
      · exact Or.inl h'
      · rcases List.mem_append.1 h' with h'' | h''
        · exact Or.inl h''
        · simp at h''
          subst h''
          exact Or.inr (by simp)
    · exact Or.inr (by simp [h'])

/-! ## Roster lemmas -/

theorem rosterFold_none (rows : List String) :
    rows.foldl
      (fun acc row => acc.bind fun ms => (parseRosterRow row).map fun m? => ms ++ m?.toList)
      none = none := by
  induction rows with
  | nil => rfl
  | cons row rest ih => simpa using ih

theorem rosterFold_ok (rows : List String) :
    ∀ acc : List ClanMember,
      (∀ row ∈ rows, parseRosterRow row ≠ none) →
      rows.foldl
        (fun acc row => acc.bind fun ms => (parseRosterRow row).map fun m? => ms ++ m?.toList)
        (some acc) =
        some (acc ++ rows.filterMap rosterRowMember) := by
  induction rows with
  | nil =>
    intro acc _
    simp
  | cons row rest ih =>
    intro acc h
    cases hrow : parseRosterRow row with
    | none => exact absurd hrow (h row (by simp))
    | some m? =>
      cases m? with
      | none =>
        have hstep : ((some acc).bind fun ms =>
            (parseRosterRow row).map fun m? => ms ++ m?.toList) = some acc := by
          simp [hrow]
        have hfm : List.filterMap rosterRowMember (row :: rest) =
            List.filterMap rosterRowMember rest := by
          simp [List.filterMap_cons, rosterRowMember, hrow]
        simp only [List.foldl_cons]
        rw [hstep, hfm, ih acc (fun r hr => h r (by simp [hr]))]
      | some mem =>
        have hstep : ((some acc).bind fun ms =>
            (parseRosterRow row).map fun m? => ms ++ m?.toList) = some (acc ++ [mem]) := by
          simp [hrow]
        have hfm : List.filterMap rosterRowMember (row :: rest) =
            mem :: List.filterMap rosterRowMember rest := by
          simp [List.filterMap_cons, rosterRowMember, hrow]
        simp only [List.foldl_cons]
        rw [hstep, hfm, ih (acc ++ [mem]) (fun r hr => h r (by simp [hr]))]
        simp

theorem rosterFold_err (rows : List String) (row : String)
    (hbad : parseRosterRow row = none) :
    ∀ acc : Option (List ClanMember), row ∈ rows →
      rows.foldl
        (fun acc row => acc.bind fun ms => (parseRosterRow row).map fun m? => ms ++ m?.toList)
        acc = none := by
  induction rows with
  | nil =>
    intro acc h
    cases h
  | cons r rest ih =>
    intro acc hmem
    simp only [List.foldl_cons]
    rcases List.mem_cons.1 hmem with heq | hmem'
    · have hz : (acc.bind fun ms => (parseRosterRow r).map fun m? => ms ++ m?.toList) = none := by
        cases acc <;> simp [← heq, hbad]
      rw [hz]
      exact rosterFold_none rest
    · exact ih _ hmem'

theorem fetch_clan_members_rows_ok (header : String) (rows : List String)
    (h : ∀ row ∈ rows, parseRosterRow row ≠ none) :
    fetch_clan_members_rows (header :: rows) =
      some (rows.filterMap rosterRowMember) := by
  unfold fetch_clan_members_rows
  simp only [List.drop_succ_cons, List.drop_zero]
  simpa using rosterFold_ok rows [] h

theorem fetch_clan_members_rows_err (header : String) (rows : List String) (row : String)
    (hmem : row ∈ rows) (hbad : parseRosterRow row = none) :
    fetch_clan_members_rows (header :: rows) = none := by
  unfold fetch_clan_members_rows
  simp only [List.drop_succ_cons, List.drop_zero]
  exact rosterFold_err rows row hbad _ hmem

/-! ## Scheduler prefix lemma -/

theorem batchEvents_nil (ms : List ClanMember) : batchEvents ms [] = [] := by
  simp [batchEvents]

theorem batchEvents_cons (m : ClanMember) (ms : List ClanMember)
    (acts : List Activity) (actsL : List (List Activity)) :
    batchEvents (m :: ms) (acts :: actsL) = memberEvents m acts ++ batchEvents ms actsL := by
  simp [batchEvents, List.zip_cons_cons]

theorem runLoop_success_block (members : List ClanMember) (cancelAt : Option Nat)
    (actsL : List (List Activity)) :
    ∀ (os : List FetchOutcome) (s : LoopState),
      s.index + actsL.length ≤ members.length →
      s.requestDelay = 10 →
      (∀ pa ∈ (members.drop s.index).zip actsL, goodActs pa.1 pa.2) →
      (∀ j, j < actsL.length → cancelFired cancelAt (s.iter + j) = false) →
      runLoop members (-1) cancelAt (actsL.map FetchOutcome.success ++ os) s =
        runLoop members (-1) cancelAt os
          { s with index := s.index + actsL.length,
                   numSuccess := s.numSuccess + actsL.length,
                   events := s.events ++ batchEvents (members.drop s.index) actsL,
                   iter := s.iter + actsL.length } := by
  induction actsL with
  | nil =>
    intro os s _ _ _ _
    rw [List.map_nil, List.nil_append]
    congr 1
    cases s
    simp [batchEvents_nil]
  | cons acts rest ih =>
    intro os s hlen hdelay hgood hcancel
    have hidx : s.index < members.length := by
      simp only [List.length_cons] at hlen
      omega
    have hdrop : members.drop s.index =
        members.getD s.index default :: members.drop (s.index + 1) := by
      rw [List.getD_eq_getElem members default hidx]
      exact List.drop_eq_getElem_cons hidx
    have hcf : cancelFired cancelAt s.iter = false := by
      simpa using hcancel 0 (by simp)
    have hgood0 : goodActs (members.getD s.index default) acts := by
      refine hgood (members.getD s.index default, acts) ?_
      rw [hdrop]
      simp [List.zip_cons_cons]
    have hac := appendCaps_acc (members.getD s.index default).rsn
      (get_cap_events acts) s.events
    unfold goodActs at hgood0
    rw [List.map_cons, List.cons_append]
    simp only [runLoop]
    rw [if_pos hidx, hcf]
    rw [if_neg (show ¬ (false = true) by simp)]
    rw [hac]
    simp only [hgood0]
    rw [if_neg (show ¬ (false = true) by simp)]
    rw [if_neg (show ¬ ((0 : Int) < -1 ∧ (-1 : Int) ≤ ((s.numSuccess : Int) + 1)) by omega)]
    refine Eq.trans (ih os _ ?_ rfl ?_ ?_) ?_
    · show s.index + 1 + rest.length ≤ members.length
      simp only [List.length_cons] at hlen
      omega
    · intro pa hpa
      have hpa2 : pa ∈ (members.drop (s.index + 1)).zip rest := hpa
      refine hgood pa ?_
      rw [hdrop]
      simp only [List.zip_cons_cons, List.mem_cons]
      exact Or.inr hpa2
    · intro j hj
      show cancelFired cancelAt (s.iter + 1 + j) = false
      have h2 := hcancel (j + 1) (by simp only [List.length_cons]; omega)
      have h3 : s.iter + (j + 1) = s.iter + 1 + j := by omega
      rw [h3] at h2
      exact h2
    · congr 1
      rw [hdrop, batchEvents_cons]
      simp only [LoopState.mk.injEq, memberEvents, List.append_assoc, List.length_cons]
      exact ⟨by omega, by omega, trivial, hdelay.symm, trivial, trivial, by omega⟩

/-! ## List helper lemmas -/

theorem zip_take_right {α β : Type} (l1 : List α) (l2 : List β) (n : Nat) :
    l1.zip (l2.take n) = (l1.zip l2).take n := by
  induction l1 generalizing l2 n with
  | nil => simp
  | cons a l1 ih =>
    cases l2 with
    | nil => simp
    | cons b l2 =>
      cases n with
      | zero => simp
      | succ n => simp [List.zip_cons_cons, ih]

theorem zip_take_take {α β : Type} (l1 : List α) (l2 : List β) (n : Nat) :
    (l1.take n).zip (l2.take n) = (l1.zip l2).take n := by
  induction l1 generalizing l2 n with
  | nil => simp
  | cons a l1 ih =>
    cases l2 with
    | nil => simp
    | cons b l2 =>
      cases n with
      | zero => simp
      | succ n => simp [List.zip_cons_cons, ih]

/-! ## Claim theorems -/

/-- Claim C1 (code bug in the source): a non-429 `HTTPError` (here a 500
response while fetching the single member's activities) is re-raised inside
the `except HTTPError` clause; Python does not fall through to the
`except Exception` clause of the same `try`, so the error escapes
`get_clan_cap_events` without touching the failure counter and kills the
background task thread before any insert — the run's result is the
uncaught exception, not a normal return. -/
theorem claim1_non429_http_escapes :
    get_clan_cap_events (some "hdr\nAlice,Owner,1,0") none [FetchOutcome.http 500] (-1) =
      .error 500 ∧
    fetch_cap_event_task [] (some "hdr\nAlice,Owner,1,0") none [FetchOutcome.http 500] =
      .error 500 := by
  have hfc : fetch_clan_members "hdr\nAlice,Owner,1,0" =
      some [{ rsn := "Alice", rank := "Owner", total_xp := 1, kills := 0 }] := by
    decide
  have hrl : runLoop [{ rsn := "Alice", rank := "Owner", total_xp := 1, kills := 0 }]
      (-1) none [FetchOutcome.http 500] initState = .raised 500 initState := by
    decide
  constructor
  · simp only [get_clan_cap_events, hfc, hrl]
  · simp only [fetch_cap_event_task, get_clan_cap_events, hfc, hrl, Except.map]

/-- Claim C5: `insertBatch` silently ignores events whose
`(rsn, cap_timestamp)` key already exists and inserts exactly the new
ones: re-inserting a batch is a no-op (hence identical query results), and
a batch of one already-stored and one new row inserts exactly one row. -/
theorem claim5_insertBatch :
    (∀ (db b : List CapRow), insertBatch (insertBatch db b) b = insertBatch db b) ∧
    (∀ (db b : List CapRow) (since : Int),
      queryRecent (insertBatch (insertBatch db b) b) since =
        queryRecent (insertBatch db b) since) ∧
    (∀ (db : List CapRow) (e1 e2 : CapRow),
      keyMem db e1 = true → keyMem db e2 = false →
      insertBatch db [e1, e2] = db ++ [e2] ∧
      (insertBatch db [e1, e2]).length = db.length + 1) := by
  have hidem : ∀ (db b : List CapRow), insertBatch (insertBatch db b) b = insertBatch db b :=
    fun db b =>
      insertBatch_of_all_keyMem b (insertBatch db b)
        (fun r hr => keyMem_insertBatch_of_mem b db r hr)
  refine ⟨hidem, fun db b since => by rw [hidem], ?_⟩
  intro db e1 e2 h1 h2
  have hins : insertBatch db [e1, e2] = db ++ [e2] := by
    simp only [insertBatch, List.foldl_cons, List.foldl_nil]
    rw [insertOrIgnore_of_keyMem db e1 h1]
    unfold insertOrIgnore
    rw [if_neg (by simp [h2])]
  exact ⟨hins, by rw [hins]; simp⟩

/-- Witness for C5 at a concrete store and batch. -/
theorem claim5_insertBatch_witness :
    keyMem [⟨"A", 60, some "auto"⟩] ⟨"A", 60, some "manual"⟩ = true ∧
    keyMem [⟨"A", 60, some "auto"⟩] ⟨"B", 120, some "auto"⟩ = false ∧
    insertBatch [⟨"A", 60, some "auto"⟩] [⟨"A", 60, some "manual"⟩, ⟨"B", 120, some "auto"⟩] =
      [⟨"A", 60, some "auto"⟩, ⟨"B", 120, some "auto"⟩] :=
  ⟨by decide, by decide,
    by
      have h := (claim5_insertBatch.2.2 [⟨"A", 60, some "auto"⟩]
        ⟨"A", 60, some "manual"⟩ ⟨"B", 120, some "auto"⟩ (by decide) (by decide)).1
      rw [h]
      rfl⟩

/-- Counterexample to claim C7 as stated: the formatter truncates seconds,
so re-parsing the formatted date of epoch second 30 yields 0, not 30. -/
theorem claim7_roundtrip_fails_at_30 :
    get_date_timestamp (some (timestamp_to_date 30)) = some 0 ∧ (0 : Int) ≠ 30 := by
  constructor
  · rfl
  · decide

/-- Claim C7 (amended): for every epoch-seconds integer that is a whole
multiple of 60 (and within the formatter's representable range), formatting
with `timestamp_to_date` and re-parsing with `get_date_timestamp` yields the
original integer. -/
theorem claim7_roundtrip_minutes (t : Int) (h60 : t % 60 = 0)
    (hlo : 0 ≤ t) (hhi : t < 253402300800) :
    get_date_timestamp (some (timestamp_to_date t)) = some t :=
  roundtrip_mul60 t h60

/-- Witness for C7 at a concrete minute-aligned timestamp. -/
theorem claim7_roundtrip_minutes_witness :
    (951782400 : Int) % 60 = 0 ∧
    get_date_timestamp (some (timestamp_to_date 951782400)) = some 951782400 :=
  ⟨by decide, claim7_roundtrip_minutes 951782400 (by decide) (by decide) (by decide)⟩

/-- Claim C10: every timestamp produced by the classifier's date parser is
a whole multiple of 60; hence every pair accumulated by a run, and every
row auto-inserted into the store, is minute-aligned. -/
theorem claim10_minute_aligned :
    (∀ (d : Option DateParts) (t : Int), get_date_timestamp d = some t → (60 : Int) ∣ t) ∧
    (∀ (roster : Option String) (cancelAt : Option Nat) (os : List FetchOutcome)
      (maxE : Int) (evs : List (String × Int)),
      get_clan_cap_events roster cancelAt os maxE = .ok evs →
      ∀ p ∈ evs, (60 : Int) ∣ p.2) ∧
    (∀ (db : List CapRow) (roster : Option String) (cancelAt : Option Nat)
      (os : List FetchOutcome) (db2 : List CapRow),
      fetch_cap_event_task db roster cancelAt os = .ok db2 →
      ∀ r ∈ db2, r ∈ db ∨ (60 : Int) ∣ r.cap_timestamp) := by
  have hrun : ∀ (roster : Option String) (cancelAt : Option Nat) (os : List FetchOutcome)
      (maxE : Int) (evs : List (String × Int)),
      get_clan_cap_events roster cancelAt os maxE = .ok evs →
      ∀ p ∈ evs, (60 : Int) ∣ p.2 := by
    intro roster cancelAt os maxE evs h p hp
    cases roster with
    | none =>
      simp only [get_clan_cap_events] at h
      cases h
      cases hp
    | some content =>
      simp only [get_clan_cap_events] at h
      cases hfc : fetch_clan_members content with
      | none =>
        simp only [hfc] at h
        cases h
        cases hp
      | some members =>
        simp only [hfc] at h
        have hinv := runLoop_events_dvd members maxE cancelAt os initState
          (by intro q hq; cases hq)
        cases hrl : runLoop members maxE cancelAt os initState with
        | ok s =>
          rw [hrl] at hinv
          simp only [hrl, Except.ok.injEq] at h
          subst h
          exact hinv p hp
        | raised code s =>
          simp only [hrl] at h
          cases h
        | fuelOut s =>
          rw [hrl] at hinv
          simp only [hrl, Except.ok.injEq] at h
          subst h
          exact hinv p hp
  refine ⟨get_date_timestamp_dvd, hrun, ?_⟩
  intro db roster cancelAt os db2 h r hr
  simp only [fetch_cap_event_task] at h
  cases hg : get_clan_cap_events roster cancelAt os (-1) with
  | error code =>
    simp only [hg, Except.map] at h
    cases h
  | ok evs =>
    simp only [hg, Except.map, Except.ok.injEq] at h
    subst h
    rcases mem_insertBatch _ _ _ hr with h' | h'
    · exact Or.inl h'
    · simp only [List.mem_map] at h'
      obtain ⟨p, hp, hpr⟩ := h'
      right
      rw [← hpr]
      exact hrun roster cancelAt os (-1) evs hg p hp

/-- Witness for C10 at a concrete parsed date. -/
theorem claim10_minute_aligned_witness :
    get_date_timestamp
        (some { year := 1970, month := 1, day := 1, hour := 0, minute := 1 }) = some 60 ∧
    (60 : Int) ∣ 60 :=
  ⟨by decide,
    claim10_minute_aligned.1
      (some { year := 1970, month := 1, day := 1, hour := 0, minute := 1 }) 60 (by decide)⟩

/-! ## More scheduler step lemmas -/

theorem runLoop_error_step (members : List ClanMember) (maxE : Int) (cAt : Option Nat)
    (rest : List FetchOutcome) (s : LoopState)
    (hidx : s.index < members.length) (hcf : cancelFired cAt s.iter = false)
    (hfail : s.numFailures + 1 ≤ MAX_FAILURES) :
    runLoop members maxE cAt (FetchOutcome.error :: rest) s =
      runLoop members maxE cAt rest
        { s with numFailures := s.numFailures + 1, index := s.index + 1,
                 iter := s.iter + 1 } := by
  simp only [runLoop]
  rw [if_pos hidx, hcf]
  rw [if_neg (show ¬ (false = true) by simp)]
  rw [if_neg (show ¬ (MAX_FAILURES < s.numFailures + 1) by omega)]

theorem runLoop_error_abort (members : List ClanMember) (maxE : Int) (cAt : Option Nat)
    (rest : List FetchOutcome) (s : LoopState)
    (hidx : s.index < members.length) (hcf : cancelFired cAt s.iter = false)
    (hfail : MAX_FAILURES < s.numFailures + 1) :
    runLoop members maxE cAt (FetchOutcome.error :: rest) s =
      .ok { s with numFailures := s.numFailures + 1 } := by
  simp only [runLoop]
  rw [if_pos hidx, hcf]
  rw [if_neg (show ¬ (false = true) by simp)]
  rw [if_pos hfail]

theorem appendCaps_split (rsn : String) (l1 l2 : List Activity) (acc : List (String × Int))
    (h : (appendCaps rsn l1 acc).2 = false) :
    appendCaps rsn (l1 ++ l2) acc = appendCaps rsn l2 (appendCaps rsn l1 acc).1 := by
  induction l1 generalizing acc with
  | nil => simp [appendCaps]
  | cons a rest ih =>
    cases hda : get_date_timestamp a.date with
    | none => simp [appendCaps, hda] at h
    | some t =>
      simp only [List.cons_append, appendCaps, hda]
      exact ih _ (by simpa [appendCaps, hda] using h)

/-- Claim C2: on a 429 the index is not advanced; the scheduler sleeps the
current backoff delay then doubles it; the delay starts at 10 and resets to
10 on a success; when the doubled delay exceeds 100 the loop aborts keeping
accumulated events; so consecutive 429s sleep 10, 20, 40, 80 before the
abort, and a member that succeeds within the retry budget contributes its
events.  The run here: member one gets one 429 then succeeds (showing
retry-in-place and delay reset), then member two gets `k` consecutive 429s. -/
theorem claim2_backoff (r1 r2 : String) (acts1 acts2 : List Activity)
    (ev1 ev2 : List (String × Int)) (k : Nat)
    (h1 : appendCaps r1 (get_cap_events acts1) [] = (ev1, false))
    (h2 : appendCaps r2 (get_cap_events acts2) [] = (ev2, false)) :
    (k ≤ 3 →
      runLoop [⟨r1, "", 0, 0⟩, ⟨r2, "", 0, 0⟩] (-1) none
          (FetchOutcome.http 429 :: FetchOutcome.success acts1 ::
            (List.replicate k (FetchOutcome.http 429) ++ [FetchOutcome.success acts2]))
          initState =
        .ok { index := 2, numSuccess := 2, numFailures := 0, requestDelay := 10,
              events := ev1 ++ ev2,
              sleeps := 10 :: (List.range k).map (fun i => 10 * 2 ^ i),
              iter := 3 + k }) ∧
    (4 ≤ k →
      runLoop [⟨r1, "", 0, 0⟩, ⟨r2, "", 0, 0⟩] (-1) none
          (FetchOutcome.http 429 :: FetchOutcome.success acts1 ::
            (List.replicate k (FetchOutcome.http 429) ++ [FetchOutcome.success acts2]))
          initState =
        .ok { index := 1, numSuccess := 1, numFailures := 0, requestDelay := 160,
              events := ev1, sleeps := [10, 10, 20, 40, 80], iter := 5 }) := by
  have h2' : appendCaps r2 (get_cap_events acts2) ev1 = (ev1 ++ ev2, false) := by
    rw [appendCaps_acc, h2]
  constructor
  · intro hk
    interval_cases k
    · simp [runLoop, cancelFired, initState, h1, h2', MAX_FAILURES, List.getD]
    · simp [runLoop, cancelFired, initState, h1, h2', MAX_FAILURES, List.getD,
        List.replicate, List.range_succ]
    · simp [runLoop, cancelFired, initState, h1, h2', MAX_FAILURES, List.getD,
        List.replicate, List.range_succ]
    · simp [runLoop, cancelFired, initState, h1, h2', MAX_FAILURES, List.getD,
        List.replicate, List.range_succ]
  · intro hk
    obtain ⟨j, rfl⟩ : ∃ j, k = 4 + j := ⟨k - 4, by omega⟩
    have hrep : List.replicate (4 + j) (FetchOutcome.http 429) =
        FetchOutcome.http 429 :: FetchOutcome.http 429 :: FetchOutcome.http 429 ::
          FetchOutcome.http 429 :: List.replicate j (FetchOutcome.http 429) := by
      rw [List.replicate_add]
      rfl
    rw [hrep]
    simp [runLoop, cancelFired, initState, h1, MAX_FAILURES, List.getD]

/-- Witness for C2: one 429 before each member's success, two cap events
collected. -/
theorem claim2_backoff_witness :
    appendCaps "A" (get_cap_events [capAt10]) [] = ([("A", 600)], false) ∧
    runLoop [⟨"A", "", 0, 0⟩, ⟨"B", "", 0, 0⟩] (-1) none
        (FetchOutcome.http 429 :: FetchOutcome.success [capAt10] ::
          (List.replicate 2 (FetchOutcome.http 429) ++ [FetchOutcome.success []]))
        initState =
      .ok { index := 2, numSuccess := 2, numFailures := 0, requestDelay := 10,
            events := [("A", 600)] ++ [],
            sleeps := 10 :: (List.range 2).map (fun i => 10 * 2 ^ i), iter := 3 + 2 } :=
  ⟨by decide,
    (claim2_backoff "A" "B" [capAt10] [] [("A", 600)] [] 2
      (by decide) (by decide)).1 (by norm_num)⟩

/-- Counterexample to claim C3 as stated: with six failures each separated
by a success (so never two consecutive failures), the run still aborts on
the sixth failure — `num_failures` is never reset by a success.  Twelve
members, alternating error/success outcomes; the run returns at member
index 10, never fetching member 12 although its outcome (a cap event for
"L") is available; a consecutive-failure counter would have reset five
times and the run would have reached member 12. -/
theorem claim3_failures_not_consecutive :
    runLoop
        [⟨"A", "", 0, 0⟩, ⟨"B", "", 0, 0⟩, ⟨"C", "", 0, 0⟩, ⟨"D", "", 0, 0⟩,
         ⟨"E", "", 0, 0⟩, ⟨"F", "", 0, 0⟩, ⟨"G", "", 0, 0⟩, ⟨"H", "", 0, 0⟩,
         ⟨"I", "", 0, 0⟩, ⟨"J", "", 0, 0⟩, ⟨"K", "", 0, 0⟩, ⟨"L", "", 0, 0⟩]
        (-1) none
        [FetchOutcome.error, FetchOutcome.success [], FetchOutcome.error,
         FetchOutcome.success [], FetchOutcome.error, FetchOutcome.success [],
         FetchOutcome.error, FetchOutcome.success [], FetchOutcome.error,
         FetchOutcome.success [], FetchOutcome.error,
         FetchOutcome.success [capAt10]]
        initState =
      .ok { index := 10, numSuccess := 5, numFailures := 6, requestDelay := 10,
            events := [], sleeps := [], iter := 10 } ∧
    ([] : List (String × Int)) ≠ [("L", 600)] := by
  constructor
  · decide
  · decide

/-- Claim C3 (amended): the failure counter is cumulative over the whole
run — a success in between does not reset it — and is distinct from the
backoff state; the run aborts, returning the events accumulated so far,
exactly when the total number of per-member failures exceeds 5, i.e. on
the sixth failure overall (in particular after six consecutive failures);
members after the abort point are not fetched even when outcomes remain. -/
theorem claim3_cumulative_failures (members : List ClanMember)
    (actsL : List (List Activity)) (os : List FetchOutcome)
    (hlen : actsL.length + 6 ≤ members.length)
    (hgood : ∀ pa ∈ members.zip actsL, goodActs pa.1 pa.2) :
    runLoop members (-1) none
        (actsL.map FetchOutcome.success ++ (List.replicate 6 FetchOutcome.error ++ os))
        initState =
      .ok { index := actsL.length + 5, numSuccess := actsL.length, numFailures := 6,
            requestDelay := 10, events := batchEvents members actsL, sleeps := [],
            iter := actsL.length + 5 } := by
  rw [runLoop_success_block members none actsL
    (List.replicate 6 FetchOutcome.error ++ os) initState
    (by show 0 + actsL.length ≤ members.length; omega) rfl
    (by intro pa hpa; exact hgood pa (by simpa using hpa))
    (fun j hj => rfl)]
  rw [show List.replicate 6 FetchOutcome.error ++ os =
    FetchOutcome.error :: FetchOutcome.error :: FetchOutcome.error ::
      FetchOutcome.error :: FetchOutcome.error :: FetchOutcome.error :: os from rfl]
  rw [runLoop_error_step members (-1) none, runLoop_error_step members (-1) none,
    runLoop_error_step members (-1) none, runLoop_error_step members (-1) none,
    runLoop_error_step members (-1) none, runLoop_error_abort members (-1) none]
  · congr 1
    simp only [LoopState.mk.injEq, initState, List.drop_zero, List.nil_append,
      eq_self_iff_true, and_true, true_and]
    omega
  all_goals first
    | rfl
    | (dsimp only [initState, MAX_FAILURES]; omega)

/-- Witness for C3 at a concrete roster: one successful member with a cap
event, then six failing members, aborts with the one event. -/
theorem claim3_cumulative_failures_witness :
    ([[capAt10]] : List (List Activity)).length + 6 ≤
      ([⟨"A", "", 0, 0⟩, ⟨"B", "", 0, 0⟩, ⟨"C", "", 0, 0⟩, ⟨"D", "", 0, 0⟩,
        ⟨"E", "", 0, 0⟩, ⟨"F", "", 0, 0⟩, ⟨"G", "", 0, 0⟩] : List ClanMember).length ∧
    runLoop
        [⟨"A", "", 0, 0⟩, ⟨"B", "", 0, 0⟩, ⟨"C", "", 0, 0⟩, ⟨"D", "", 0, 0⟩,
         ⟨"E", "", 0, 0⟩, ⟨"F", "", 0, 0⟩, ⟨"G", "", 0, 0⟩] (-1) none
        (([[capAt10]] : List (List Activity)).map FetchOutcome.success ++
          (List.replicate 6 FetchOutcome.error ++ [])) initState =
      .ok { index := 1 + 5, numSuccess := 1, numFailures := 6, requestDelay := 10,
            events := batchEvents
              [⟨"A", "", 0, 0⟩, ⟨"B", "", 0, 0⟩, ⟨"C", "", 0, 0⟩, ⟨"D", "", 0, 0⟩,
               ⟨"E", "", 0, 0⟩, ⟨"F", "", 0, 0⟩, ⟨"G", "", 0, 0⟩]
              [[capAt10]],
            sleeps := [], iter := 1 + 5 } :=
  ⟨by decide,
    claim3_cumulative_failures _ _ [] (by decide) (by decide)⟩

theorem runLoop_halt (members : List ClanMember) (maxE : Int) (cAt : Option Nat)
    (os : List FetchOutcome) (s : LoopState)
    (h : cancelFired cAt s.iter = true ∨ members.length ≤ s.index) :
    runLoop members maxE cAt os s = .ok s := by
  rcases h with h | h
  · cases os <;> simp [runLoop, h]
  · cases os <;> (simp only [runLoop]; rw [if_neg (by omega)])

/-- Claim C4: if the cancellation signal is set at an iteration boundary the
scheduler returns exactly the events accumulated so far: cancellation before
any iteration yields an empty batch, and cancellation after `N` members have
been processed yields exactly the events gathered from those `N` members. -/
theorem claim4_cancellation (members : List ClanMember) (actsL : List (List Activity))
    (os : List FetchOutcome) (content : String) (N : Nat)
    (hfc : fetch_clan_members content = some members)
    (hN : N ≤ actsL.length) (hlen : actsL.length ≤ members.length)
    (hgood : ∀ pa ∈ members.zip actsL, goodActs pa.1 pa.2) :
    get_clan_cap_events (some content) (some 0) (actsL.map FetchOutcome.success ++ os) (-1) =
      .ok [] ∧
    get_clan_cap_events (some content) (some N) (actsL.map FetchOutcome.success ++ os) (-1) =
      .ok (batchEvents (members.take N) (actsL.take N)) := by
  constructor
  · have h0 : runLoop members (-1) (some 0) (actsL.map FetchOutcome.success ++ os) initState =
        .ok initState :=
      runLoop_halt members (-1) (some 0) _ initState (Or.inl rfl)
    simp only [get_clan_cap_events, hfc, h0]
    rfl
  · have hsplit : actsL.map FetchOutcome.success ++ os =
        (actsL.take N).map FetchOutcome.success ++
          ((actsL.drop N).map FetchOutcome.success ++ os) := by
      rw [← List.append_assoc, ← List.map_append, List.take_append_drop]
    have hbe : batchEvents members (actsL.take N) =
        batchEvents (members.take N) (actsL.take N) := by
      unfold batchEvents
      rw [zip_take_right, ← zip_take_take]
    simp only [get_clan_cap_events, hfc]
    rw [hsplit]
    rw [runLoop_success_block members (some N) (actsL.take N)
      ((actsL.drop N).map FetchOutcome.success ++ os) initState
      (by simp [initState, List.length_take]; omega) rfl
      (by intro pa hpa
          apply hgood
          have hz : (members.drop initState.index).zip (actsL.take N) =
              (members.zip actsL).take N := by
            simp only [initState]
            rw [List.drop_zero, zip_take_right]
          exact List.take_subset _ _ (hz ▸ hpa))
      (by intro j hj
          simp only [List.length_take] at hj
          simp only [cancelFired, initState]
          exact decide_eq_false (by omega))]
    rw [runLoop_halt members (-1) (some N)]
    · simp [initState, hbe]
    · left
      simp only [cancelFired, initState, List.length_take]
      exact decide_eq_true (by omega)

/-- Witness for C4: a two-member roster, cancellation after one member
yields exactly that member's events. -/
theorem claim4_cancellation_witness :
    fetch_clan_members "h\nA,r,1,2\nB,r,3,4" = some [⟨"A", "r", 1, 2⟩, ⟨"B", "r", 3, 4⟩] ∧
    get_clan_cap_events (some "h\nA,r,1,2\nB,r,3,4") (some 1)
        (([[capAt10], [capAt10]] : List (List Activity)).map FetchOutcome.success ++ []) (-1) =
      .ok (batchEvents ([⟨"A", "r", 1, 2⟩, ⟨"B", "r", 3, 4⟩].take 1)
        (([[capAt10], [capAt10]] : List (List Activity)).take 1)) :=
  ⟨by decide,
    (claim4_cancellation [⟨"A", "r", 1, 2⟩, ⟨"B", "r", 3, 4⟩] [[capAt10], [capAt10]] []
      "h\nA,r,1,2\nB,r,3,4" 1 (by decide) (by decide) (by decide) (by decide)).2⟩

/-- Counterexample to claim C6 as stated: a malformed date on one activity
does not skip only that activity — the member's whole batch stops there
(later activities of the member are lost) and the failure counts against
the member via the failure counter.  One member with a good cap, a
bad-date cap, then another good cap: the result keeps only the first
event, records a failure, and counts no success; per the claim the state
would have both good events and no failure. -/
theorem claim6_activity_failure_not_isolated :
    runLoop [⟨"A", "", 0, 0⟩] (-1) none
        [FetchOutcome.success [capAt10, capBadDate, capAt10]] initState =
      .ok { index := 1, numSuccess := 0, numFailures := 1, requestDelay := 10,
            events := [("A", 600)], sleeps := [], iter := 1 } ∧
    ([("A", 600)] : List (String × Int)) ≠ [("A", 600), ("A", 600)] := by
  exact ⟨by decide, by decide⟩

/-- Claim C6 (amended): a parse failure of one activity (e.g. a malformed
date on a cap activity) aborts the processing of that member: events
appended before the bad activity are kept, the rest of the member's
activities are dropped, the failure counter is incremented (it counts
against the member), and the run then continues with the next member. -/
theorem claim6_member_failure (r1 r2 : String) (pre post acts2 : List Activity)
    (bad : Activity)
    (hbadtext : bad.text = capSentinel)
    (hbaddate : get_date_timestamp bad.date = none)
    (hpre : (appendCaps r1 (get_cap_events pre) []).2 = false)
    (hacts2 : (appendCaps r2 (get_cap_events acts2) []).2 = false) :
    runLoop [⟨r1, "", 0, 0⟩, ⟨r2, "", 0, 0⟩] (-1) none
        [FetchOutcome.success (pre ++ bad :: post), FetchOutcome.success acts2]
        initState =
      .ok { index := 2, numSuccess := 1, numFailures := 1, requestDelay := 10,
            events := (appendCaps r1 (get_cap_events pre) []).1 ++
              (appendCaps r2 (get_cap_events acts2) []).1,
            sleeps := [], iter := 2 } := by
  have hgce : get_cap_events (pre ++ bad :: post) =
      get_cap_events pre ++ bad :: get_cap_events post := by
    simp [get_cap_events, List.filter_append, List.filter_cons, hbadtext]
  have hfail : appendCaps r1 (get_cap_events (pre ++ bad :: post)) [] =
      ((appendCaps r1 (get_cap_events pre) []).1, true) := by
    rw [hgce, appendCaps_split _ _ _ _ hpre]
    simp [appendCaps, hbaddate]
  have h2' : appendCaps r2 (get_cap_events acts2)
        ((appendCaps r1 (get_cap_events pre) []).1) =
      ((appendCaps r1 (get_cap_events pre) []).1 ++
        (appendCaps r2 (get_cap_events acts2) []).1, false) := by
    rw [appendCaps_acc, hacts2]
  simp [runLoop, cancelFired, initState, hfail, h2', MAX_FAILURES, List.getD]

/-- Witness for C6 (amended): concrete member whose second cap activity has
an invalid date; only the first event survives, the failure is counted,
and the next member is still processed. -/
theorem claim6_member_failure_witness :
    capBadDate.text = capSentinel ∧
    get_date_timestamp capBadDate.date = none ∧
    runLoop [⟨"A", "", 0, 0⟩, ⟨"B", "", 0, 0⟩] (-1) none
        [FetchOutcome.success ([capAt10] ++ capBadDate :: [capAt10]),
         FetchOutcome.success [capAt10]] initState =
      .ok { index := 2, numSuccess := 1, numFailures := 1, requestDelay := 10,
            events := (appendCaps "A" (get_cap_events [capAt10]) []).1 ++
              (appendCaps "B" (get_cap_events [capAt10]) []).1,
            sleeps := [], iter := 2 } :=
  ⟨rfl, by decide,
    claim6_member_failure "A" "B" [capAt10] [capAt10] [capAt10] capBadDate rfl (by decide)
      (by decide) (by decide)⟩

/-- Claim C8: the roster parser discards the header line; a line with fewer
than 4 comma-delimited fields contributes no member; every other line
(whose numeric fields parse) contributes a `ClanMember` whose rsn has
non-breaking spaces replaced by ordinary spaces and is trimmed, whose rank
is trimmed, and whose XP and kill count are the parsed integers. -/
theorem claim8_roster (header : String) (rows : List String)
    (h : ∀ row ∈ rows, parseRosterRow row ≠ none) :
    fetch_clan_members_rows (header :: rows) = some (rows.filterMap rosterRowMember) ∧
    (∀ row : String, (pySplit ',' row).length < 4 → rosterRowMember row = none) ∧
    (∀ (row : String) (xp k : Int), 4 ≤ (pySplit ',' row).length →
      pyInt ((pySplit ',' row).getD 2 "") = some xp →
      pyInt ((pySplit ',' row).getD 3 "") = some k →
      rosterRowMember row = some
        { rsn := pyStrip (pyReplaceChar ' ' ' ' ((pySplit ',' row).getD 0 "")),
          rank := pyStrip ((pySplit ',' row).getD 1 ""),
          total_xp := xp, kills := k }) := by
  refine ⟨fetch_clan_members_rows_ok header rows h, ?_, ?_⟩
  · intro row hlt
    simp only [rosterRowMember, parseRosterRow]
    rw [if_pos hlt]
  · intro row xp k hge hxp hk
    simp only [rosterRowMember, parseRosterRow]
    rw [if_neg (by omega)]
    rw [hxp, hk]

/-- Witness for C8: a 3-line roster (header plus two valid rows, the first
with a non-breaking space in the name) yields exactly the two members,
with the NBSP normalized to a space and the numeric fields typed. -/
theorem claim8_roster_witness :
    (∀ row ∈ ["Al Kharid,Owner,100,5", "Bob,Member,200,0"],
      parseRosterRow row ≠ none) ∧
    fetch_clan_members_rows
        ("Clan,Rank,XP,Kills" :: ["Al Kharid,Owner,100,5", "Bob,Member,200,0"]) =
      some (["Al Kharid,Owner,100,5", "Bob,Member,200,0"].filterMap rosterRowMember) ∧
    ["Al Kharid,Owner,100,5", "Bob,Member,200,0"].filterMap rosterRowMember =
      [⟨"Al Kharid", "Owner", 100, 5⟩, ⟨"Bob", "Member", 200, 0⟩] :=
  ⟨by decide,
    (claim8_roster "Clan,Rank,XP,Kills" ["Al Kharid,Owner,100,5", "Bob,Member,200,0"]
      (by decide)).1,
    by decide⟩

/-- Claim C9: a roster line with at least 4 comma-delimited fields whose XP
or kill-count field is not a valid integer fails the whole roster parse,
which is fatal to the run: `get_clan_cap_events` returns an empty result
and no events are ingested — unlike short lines, such a line is not
skipped. -/
theorem claim9_bad_int_fatal (content header row : String) (rows : List String)
    (cancelAt : Option Nat) (outcomes : List FetchOutcome) (maxE : Int)
    (hsplit : pySplit '\n' content = header :: rows)
    (hmem : row ∈ rows) (hge : 4 ≤ (pySplit ',' row).length)
    (hbad : pyInt ((pySplit ',' row).getD 2 "") = none ∨
      pyInt ((pySplit ',' row).getD 3 "") = none) :
    parseRosterRow row = none ∧
    fetch_clan_members content = none ∧
    get_clan_cap_events (some content) cancelAt outcomes maxE = .ok [] := by
  have hpr : parseRosterRow row = none := by
    simp only [parseRosterRow]
    rw [if_neg (by omega)]
    rcases hbad with hb | hb
    · cases h3 : pyInt ((pySplit ',' row).getD 3 "") <;> rw [hb]
    · cases h2 : pyInt ((pySplit ',' row).getD 2 "") <;> rw [hb]
  have hfm : fetch_clan_members content = none := by
    simp only [fetch_clan_members]
    rw [hsplit]
    exact fetch_clan_members_rows_err header rows row hmem hpr
  exact ⟨hpr, hfm, by simp [get_clan_cap_events, hfm]⟩

/-- Witness for C9: the roster "h\nA,B,xx,4" (header plus one 4-field row
with non-numeric XP) makes the whole run return empty. -/
theorem claim9_bad_int_fatal_witness :
    pySplit '\n' "h\nA,B,xx,4" = ["h", "A,B,xx,4"] ∧
    get_clan_cap_events (some "h\nA,B,xx,4") none [] (-1) = .ok [] :=
  ⟨by decide,
    (claim9_bad_int_fatal "h\nA,B,xx,4" "h" "A,B,xx,4" ["A,B,xx,4"] none [] (-1)
      (by decide) (by decide) (by decide) (Or.inl (by decide))).2.2⟩
